import Mathlib

/-!
Verification of the word-frequency benchmarking program (src/main.cpp).

The program is embedded shallowly:

* A text buffer is a `List Nat` of byte values (C `char`s, read as their
  ASCII codes); a word (`std::string` key) is likewise a `List Nat`.
* `std::unordered_map<std::string,int>` is an association list
  `List (Word × Nat)` whose list order stands for the map's iteration
  order.  Counts never go negative in the program, so they are `Nat`.
* `int` parameters that interact with unsigned sizes (the `top_n`
  argument of `get_top_frequent_words`) are `Int`, with the C++
  int→size_t conversion made explicit (`intToSizeT`, reduction mod 2^64).
* File I/O is the program's only external collaborator: a file is an
  `Option (List Nat)`, `none` meaning the file could not be opened.
* `std::sort` in `get_top_frequent_words` is rendered by
  `List.insertionSort` on the non-strict order induced by the source's
  comparator `a.second > b.second`; any conforming `std::sort` result is
  sorted for exactly that order and is a permutation of the input.
  The relative order of equal-count entries is unspecified in C++;
  theorems below therefore only use order-insensitive consequences
  (sortedness, permutation, length) of the sort.
* The multi-threaded path merges worker-local maps under a mutex, in
  thread completion order; the embedding merges in thread index order.
  Merge order only affects the iteration order of the result map, never
  the per-word counts, and theorems about the result use only
  order-insensitive facts (`getCount`, emptiness, key/count invariants).
-/

namespace FileProc

/-- A word: the byte string accumulated by the scanners / used as map key. -/
abbrev Word := List Nat

/-- `std::unordered_map<std::string,int>` as an association list;
list order plays the role of the map's iteration order. -/
abbrev WordCountMap := List (Word × Nat)

/-- C `isalpha` on an ASCII byte: `A`..`Z` (65..90) or `a`..`z` (97..122). -/
def isalpha (c : Nat) : Bool := (65 ≤ c && c ≤ 90) || (97 ≤ c && c ≤ 122)

/-- C `tolower` on an ASCII byte: maps `A`..`Z` to `a`..`z`, else identity. -/
def tolower (c : Nat) : Nat := if 65 ≤ c && c ≤ 90 then c + 32 else c

/-- Reading a count from the map: absent keys read as 0
(the `operator[]` default before an increment). -/
def getCount : WordCountMap → Word → Nat
  | [], _ => 0
  | p :: rest, k => if p.1 = k then p.2 else getCount rest k

/-- `map[k] += v` on `std::unordered_map`: increment the entry if the key is
present, otherwise value-initialize to 0 and add (i.e. insert `(k, v)`). -/
def addCount : WordCountMap → Word → Nat → WordCountMap
  | [], k, v => [(k, v)]
  | p :: rest, k, v => if p.1 = k then (p.1, p.2 + v) :: rest else p :: addCount rest k v

/-- The character loop shared verbatim by `count_words` and
`process_file_single_thread` (src/main.cpp lines 40-48 and 74-82):
alphabetic bytes are case-folded and appended to the word in progress;
any other byte bumps the count of a nonempty word in progress and clears
it.  Returns the map together with the word still in progress at
end-of-input (the loop itself never flushes it). -/
def scan : List Nat → WordCountMap → Word → WordCountMap × Word
  | [], m, word => (m, word)
  | c :: rest, m, word =>
    if isalpha c then scan rest m (word ++ [tolower c])
    else if word ≠ [] then scan rest (addCount m word 1) []
    else scan rest m word

/-- Worker thread body `count_words` (src/main.cpp lines 32-61): scan the
partition into a thread-local map, flush the trailing word if nonempty,
then merge the local map into the shared map under the mutex. -/
def count_words (text_part : List Nat) (word_count_map : WordCountMap) : WordCountMap :=
  let r := scan text_part [] []
  let local_word_count := if r.2 ≠ [] then addCount r.1 r.2 1 else r.1
  local_word_count.foldl (fun acc p => addCount acc p.1 p.2) word_count_map

/-- `process_file_single_thread` (src/main.cpp lines 64-84): on open
failure print a diagnostic and return the empty map; otherwise run the
scanning loop over the whole buffer.  Note the source has no end-of-input
flush on this path: the word in progress when the loop ends is dropped. -/
def process_file_single_thread (file : Option (List Nat)) : WordCountMap :=
  match file with
  | none => []
  | some file_content => (scan file_content [] []).1

/-- Fixed worker count (src/main.cpp line 20). -/
def MAX_THREADS : Nat := 4

/-- Start offset of partition `i` for a buffer of length `len`
(src/main.cpp line 98): `i * file_content.length() / MAX_THREADS`. -/
def partStart (len i : Nat) : Nat := i * len / MAX_THREADS

/-- Length of every partition for a buffer of length `len`
(src/main.cpp line 99): `file_content.length() / MAX_THREADS`. -/
def partLen (len : Nat) : Nat := len / MAX_THREADS

/-- Partition `i` of the buffer (src/main.cpp lines 97-100):
`substr(i * len / MAX_THREADS, len / MAX_THREADS)`. -/
def parts (file_content : List Nat) (i : Nat) : List Nat :=
  (file_content.drop (partStart file_content.length i)).take (partLen file_content.length)

/-- Index `j` of a buffer of length `len` falls inside at least one of the
`MAX_THREADS` partitions. -/
def coveredIdx (len j : Nat) : Prop :=
  ∃ i, i < MAX_THREADS ∧ partStart len i ≤ j ∧ j < partStart len i + partLen len

instance (len j : Nat) : Decidable (coveredIdx len j) :=
  decidable_of_iff ((List.range MAX_THREADS).any fun i =>
      decide (partStart len i ≤ j) && decide (j < partStart len i + partLen len) = true) (by
    simp [coveredIdx, List.any_eq_true, List.mem_range])

/-- `process_file_multi_thread` (src/main.cpp lines 87-120): on open
failure print a diagnostic and return the empty map; otherwise split the
buffer into `MAX_THREADS` partitions and let each worker run
`count_words` on its partition, merging into the shared map. -/
def process_file_multi_thread (file : Option (List Nat)) : WordCountMap :=
  match file with
  | none => []
  | some file_content =>
    (List.range MAX_THREADS).foldl (fun acc i => count_words (parts file_content i) acc) []

/-- The C++ implicit conversion applied to `top_n` by
`word_freqs.size() > top_n`: the signed `int` is converted to the
unsigned `size_t`, i.e. reduced mod 2^64. -/
def intToSizeT (top_n : Int) : Nat := (top_n % (2 : Int) ^ 64).toNat

/-- The order established by `std::sort` with the source's comparator
`a.second > b.second`: counts non-increasing along the output. -/
def byCountDesc : (Word × Nat) → (Word × Nat) → Prop := fun a b => b.2 ≤ a.2

instance : DecidableRel byCountDesc := fun a b => Nat.decLe b.2 a.2

instance : IsTotal (Word × Nat) byCountDesc := ⟨fun a b => Nat.le_total b.2 a.2⟩

instance : IsTrans (Word × Nat) byCountDesc := ⟨fun _ _ _ h1 h2 => Nat.le_trans h2 h1⟩

/-- `get_top_frequent_words` (src/main.cpp lines 123-136): copy the map's
entries into a vector, sort by count descending, and truncate to `top_n`
entries when the vector is longer — note the size check compares the
unsigned `size()` with the signed `top_n` after int→size_t conversion. -/
def get_top_frequent_words (word_count_map : WordCountMap) (top_n : Int) : List (Word × Nat) :=
  let word_freqs := List.insertionSort byCountDesc word_count_map
  if intToSizeT top_n < word_freqs.length then word_freqs.take (intToSizeT top_n) else word_freqs

/-- What a child process writes into the pipe (src/main.cpp lines 183-187):
`word_count.size()`, the number of distinct words found by the
multi-threaded count of its file. -/
def child_report (file : Option (List Nat)) : Nat := (process_file_multi_thread file).length

/-- The parent's collection loop in `process_files_with_fork`
(src/main.cpp lines 204-221): one blocking pipe read per file, each
delivering one child's report, accumulated into `total_count`. -/
def process_files_with_fork (files : List (Option (List Nat))) : Nat :=
  (files.map child_report).foldl (· + ·) 0

/-- One call of `get_top_frequent_words` as the caller sees it: the source
takes the map by const reference and only reads it (it copies the entries
into the local vector `word_freqs`), so a call returns its result and
leaves the map exactly as it was. -/
def get_top_call (word_count_map : WordCountMap) (top_n : Int) :
    List (Word × Nat) × WordCountMap :=
  (get_top_frequent_words word_count_map top_n, word_count_map)

/-- A byte that can occur inside a stored word: a lowercase ASCII letter
(everything `tolower` produces from an `isalpha` byte). -/
def goodChar (c : Nat) : Prop := 97 ≤ c ∧ c ≤ 122

/-- A well-formed map key: nonempty, all lowercase ASCII letters. -/
def GoodWord (w : Word) : Prop := w ≠ [] ∧ ∀ c ∈ w, goodChar c

/-- A well-formed word-count map: every entry has a well-formed key and a
count of at least 1. -/
def GoodMap (m : WordCountMap) : Prop := ∀ p ∈ m, GoodWord p.1 ∧ 1 ≤ p.2

/-- Byte values of a Lean string literal, for concrete test buffers. -/
def bytes (s : String) : List Nat := s.data.map Char.toNat

example : bytes "aaaa" = [97, 97, 97, 97] := by decide

example : process_file_single_thread (some (bytes "aaaa")) = [] := by decide

example : process_file_multi_thread (some (bytes "aaaa")) = [([97], 4)] := by decide

example : process_file_single_thread (some (bytes "Hello, World! 123 hello")) =
    [([104, 101, 108, 108, 111], 1), ([119, 111, 114, 108, 100], 1)] := by decide

example : get_top_frequent_words [([97], 1), ([98], 3)] 1 = [([98], 3)] := by decide

example : get_top_frequent_words [([97], 1), ([98], 3)] (-1) =
    [([98], 3), ([97], 1)] := by decide

example : process_files_with_fork [some (bytes "aaaa"), some (bytes "a b")] = 1 := by decide

theorem foldl_add_eq_sum : ∀ (l : List Nat) (a : Nat), l.foldl (· + ·) a = a + l.sum
  | [], a => by simp
  | x :: l, a => by
    simp only [List.foldl_cons, List.sum_cons, foldl_add_eq_sum l (a + x)]
    omega

/-- C1: evaluation of both counting paths at a buffer whose length (4) is
evenly divisible by the worker count `MAX_THREADS = 4`.  The multi-threaded
path counts the word "a" four times (each one-byte partition flushes its
trailing word), while the single-threaded scan returns the empty map (its
loop never emits the word still in progress at end-of-input), so the two
paths produce different mappings even though the claim says they agree. -/
theorem c1_partition_invariance_fails :
    getCount (process_file_multi_thread (some (bytes "aaaa"))) [97] = 4 ∧
    process_file_single_thread (some (bytes "aaaa")) = [] ∧
    process_file_multi_thread (some (bytes "aaaa")) ≠
      process_file_single_thread (some (bytes "aaaa")) := by decide

/-- C2: evaluation of the single-threaded scan at the spec's own example
buffer "Hello, World! 123 hello".  The code produces the mapping
{hello ↦ 1, world ↦ 1} — the trailing "hello" is never emitted because
the single-threaded loop (src/main.cpp lines 74-82) has no end-of-input
flush — while the claim demands {hello ↦ 2, world ↦ 1}.  The worker body
`count_words` does flush at end-of-input and yields hello ↦ 2 on the same
bytes, confirming the flush is the intended behaviour that the
single-threaded path omits. -/
theorem c2_end_of_input_word_dropped :
    getCount (process_file_single_thread (some (bytes "Hello, World! 123 hello")))
      (bytes "hello") = 1 ∧
    getCount (process_file_single_thread (some (bytes "Hello, World! 123 hello")))
      (bytes "world") = 1 ∧
    (process_file_single_thread (some (bytes "Hello, World! 123 hello"))).length = 2 ∧
    getCount (count_words (bytes "Hello, World! 123 hello") []) (bytes "hello") = 2 := by decide

/-- C4: the orchestrator's grand total is the sum of the child reports
(one per file, read in spawn order), and each child report is the number
of distinct words in the multi-threaded map of its file.  But the
per-file report does not match single-threaded counting: for a file
containing "aaaa" the child writes 1 while the single-threaded count has
0 distinct words, refuting the claim's "each per-file report matches
what single-threaded counting on that file alone produces". -/
theorem c4_fork_totals :
    (∀ files : List (Option (List Nat)),
      process_files_with_fork files = (files.map child_report).sum) ∧
    (∀ file, child_report file = (process_file_multi_thread file).length) ∧
    child_report (some (bytes "aaaa")) = 1 ∧
    (process_file_single_thread (some (bytes "aaaa"))).length = 0 := by
  refine ⟨fun files => ?_, fun _ => rfl, by decide, by decide⟩
  show (files.map child_report).foldl (· + ·) 0 = _
  rw [foldl_add_eq_sum, Nat.zero_add]

/-- C7: a file that cannot be opened makes both counting paths return the
empty map, and processing a list of files is the independent per-file
computation: a failing file in the middle leaves every other file's
result exactly what it is when that file is processed alone. -/
theorem c7_io_failure_recoverable :
    process_file_single_thread none = [] ∧
    process_file_multi_thread none = [] ∧
    (∀ pre post : List (Option (List Nat)),
      (pre ++ none :: post).map process_file_single_thread =
        pre.map process_file_single_thread ++ [] :: post.map process_file_single_thread) ∧
    (∀ pre post : List (Option (List Nat)),
      (pre ++ none :: post).map process_file_multi_thread =
        pre.map process_file_multi_thread ++ [] :: post.map process_file_multi_thread) := by
  refine ⟨rfl, rfl, fun pre post => ?_, fun pre post => ?_⟩ <;>
    simp [process_file_single_thread, process_file_multi_thread]

/-- C3 counterexample: for the buffer "abcdef" (length 6, `6 / 4 = 1`) the
four partitions are the one-byte slices "a", "b", "d", "e": byte 'c'
(index 2) belongs to no partition although index 2 lies strictly before
the trailing-remainder region `[MAX_THREADS * (len / MAX_THREADS), len)`,
refuting "no character of the buffer is omitted from every partition
except possibly a trailing remainder" (and with it full coverage). -/
theorem c3_partition_gap_cex :
    (List.range MAX_THREADS).map (parts (bytes "abcdef")) = [[97], [98], [100], [101]] ∧
    ¬ coveredIdx (bytes "abcdef").length 2 ∧
    2 < MAX_THREADS * partLen (bytes "abcdef").length := by decide

/-- C3 (amended): the `MAX_THREADS` slices are contiguous substrings of
equal length `len / MAX_THREADS`, each partition ends no later than the
next one starts (non-overlap), and when `MAX_THREADS` divides the buffer
length the partitions cover every index of the buffer; when it does not,
omitted characters can occur in the interior as well as at the tail. -/
theorem c3_partition_shape (content : List Nat) :
    (∀ i, i + 1 < MAX_THREADS →
      partStart content.length i + partLen content.length ≤ partStart content.length (i + 1)) ∧
    (∀ i, i < MAX_THREADS → (parts content i).length = partLen content.length) ∧
    (MAX_THREADS ∣ content.length → ∀ j, j < content.length → coveredIdx content.length j) := by
  refine ⟨fun i hi => ?_, fun i hi => ?_, fun hdvd j hj => ?_⟩
  · have h3 : i = 0 ∨ i = 1 ∨ i = 2 := by
      simp only [MAX_THREADS] at hi
      omega
    rcases h3 with rfl | rfl | rfl <;> · simp only [partStart, partLen, MAX_THREADS]; omega
  · have hfit : partStart content.length i + partLen content.length ≤ content.length := by
      have h4 : i = 0 ∨ i = 1 ∨ i = 2 ∨ i = 3 := by
        simp only [MAX_THREADS] at hi
        omega
      rcases h4 with rfl | rfl | rfl | rfl <;>
        · simp only [partStart, partLen, MAX_THREADS]; omega
    simp only [parts, List.length_take, List.length_drop]
    omega
  · obtain ⟨q, hq⟩ := hdvd
    simp only [coveredIdx, partStart, partLen, MAX_THREADS] at *
    rw [hq] at hj ⊢
    by_cases h1 : j < q
    · exact ⟨0, by omega⟩
    by_cases h2 : j < 2 * q
    · exact ⟨1, by omega⟩
    by_cases h3 : j < 3 * q
    · exact ⟨2, by omega⟩
    exact ⟨3, by omega⟩

/-- C3 witness: the amended partition-shape facts at the concrete buffer
"abcdefgh" (length 8, divisible by 4). -/
theorem c3_partition_shape_w :
    partStart (bytes "abcdefgh").length 0 + partLen (bytes "abcdefgh").length ≤
      partStart (bytes "abcdefgh").length 1 ∧
    (parts (bytes "abcdefgh") 2).length = partLen (bytes "abcdefgh").length ∧
    coveredIdx (bytes "abcdefgh").length 5 :=
  ⟨(c3_partition_shape (bytes "abcdefgh")).1 0 (by decide),
   (c3_partition_shape (bytes "abcdefgh")).2.1 2 (by decide),
   (c3_partition_shape (bytes "abcdefgh")).2.2 (by decide) 5 (by decide)⟩

/-- C8: the Top-N selector never mutates its input map (the call hands the
map back exactly as it was), and a second call on the map as left by the
first call returns output identical to the first call's. -/
theorem c8_top_n_idempotent_pure (m : WordCountMap) (n : Int) :
    (get_top_call m n).2 = m ∧
    (get_top_call (get_top_call m n).2 n).1 = (get_top_call m n).1 := ⟨rfl, rfl⟩

/-- C6: for any map and any requested size `N` in the int range with
`N ≥ 0`: `N = 0` yields the empty sequence; `N` larger than the map's
size yields all of the map's entries; the output length is
`min N (map size)`; and the output is sorted by count descending. -/
theorem c6_top_n_boundary (m : WordCountMap) (n : Int) (h0 : 0 ≤ n) (h1 : n < 2 ^ 31) :
    (n = 0 → get_top_frequent_words m n = []) ∧
    ((m.length : Int) < n → List.Perm (get_top_frequent_words m n) m) ∧
    (get_top_frequent_words m n).length = min n.toNat m.length ∧
    List.Sorted byCountDesc (get_top_frequent_words m n) := by
  have hconv : intToSizeT n = n.toNat := by
    unfold intToSizeT
    congr 1
    have h64 : (2 : Int) ^ 64 = 18446744073709551616 := by norm_num
    have h31 : (2 : Int) ^ 31 = 2147483648 := by norm_num
    rw [h64]
    rw [h31] at h1
    omega
  have hlen : (List.insertionSort byCountDesc m).length = m.length :=
    List.length_insertionSort byCountDesc m
  have hsort := List.sorted_insertionSort byCountDesc m
  have hperm := List.perm_insertionSort byCountDesc m
  simp only [get_top_frequent_words, hconv, hlen]
  by_cases hc : n.toNat < m.length
  · rw [if_pos hc]
    refine ⟨?_, ?_, ?_, ?_⟩
    · rintro rfl
      simp
    · intro hlt
      exact absurd hlt (by omega)
    · rw [List.length_take, hlen]
    · exact List.Pairwise.sublist (List.take_sublist _ _) hsort
  · rw [if_neg hc]
    refine ⟨?_, ?_, ?_, ?_⟩
    · rintro rfl
      have hz : (List.insertionSort byCountDesc m).length = 0 := by
        rw [hlen]
        simp only [Int.toNat_zero] at hc
        omega
      exact List.eq_nil_of_length_eq_zero hz
    · intro _
      exact hperm
    · rw [hlen]
      omega
    · exact hsort

/-- C6 witness: the boundary facts at the concrete map
{a ↦ 1, b ↦ 3, c ↦ 3} with N = 2. -/
theorem c6_top_n_boundary_w :
    (0 ≤ (2 : Int) ∧ (2 : Int) < 2 ^ 31) ∧
    (((2 : Int) = 0 →
        get_top_frequent_words [([97], 1), ([98], 3), ([99], 3)] 2 = []) ∧
      ((([([97], 1), ([98], 3), ([99], 3)] : WordCountMap).length : Int) < 2 →
        List.Perm (get_top_frequent_words [([97], 1), ([98], 3), ([99], 3)] 2)
          [([97], 1), ([98], 3), ([99], 3)]) ∧
      (get_top_frequent_words [([97], 1), ([98], 3), ([99], 3)] 2).length =
        min (2 : Int).toNat ([([97], 1), ([98], 3), ([99], 3)] : WordCountMap).length ∧
      List.Sorted byCountDesc (get_top_frequent_words [([97], 1), ([98], 3), ([99], 3)] 2)) :=
  ⟨⟨by decide, by decide⟩,
   c6_top_n_boundary [([97], 1), ([98], 3), ([99], 3)] 2 (by decide) (by decide)⟩

/-- C9: a negative requested size `N` never truncates: the unsigned
`size() > top_n` comparison converts the negative int to a value of at
least `2^64 - 2^31`, which no in-range vector length exceeds, so the
selector returns the entire map sorted by count descending. -/
theorem c9_negative_top_n (m : WordCountMap) (n : Int)
    (h0 : n < 0) (h1 : -(2 ^ 31) ≤ n) (h2 : m.length < 2 ^ 64 - 2 ^ 31) :
    List.Perm (get_top_frequent_words m n) m ∧
    List.Sorted byCountDesc (get_top_frequent_words m n) ∧
    (get_top_frequent_words m n).length = m.length := by
  have h64 : (2 : Int) ^ 64 = 18446744073709551616 := by norm_num
  have h31 : (-(2 ^ 31) : Int) = -2147483648 := by norm_num
  have h64n : (2 : Nat) ^ 64 = 18446744073709551616 := by norm_num
  have h31n : (2 : Nat) ^ 31 = 2147483648 := by norm_num
  have hbig : ¬ intToSizeT n < (List.insertionSort byCountDesc m).length := by
    rw [List.length_insertionSort]
    unfold intToSizeT
    rw [h64]
    rw [h31] at h1
    rw [h64n, h31n] at h2
    omega
  simp only [get_top_frequent_words]
  rw [if_neg hbig]
  exact ⟨List.perm_insertionSort byCountDesc m, List.sorted_insertionSort byCountDesc m,
    List.length_insertionSort byCountDesc m⟩

/-- C9 witness: the no-truncation facts at the concrete map {a ↦ 1} with
N = -1. -/
theorem c9_negative_top_n_w :
    ((-1 : Int) < 0 ∧ -(2 ^ 31) ≤ (-1 : Int) ∧
      ([([97], 1)] : WordCountMap).length < 2 ^ 64 - 2 ^ 31) ∧
    (List.Perm (get_top_frequent_words [([97], 1)] (-1)) [([97], 1)] ∧
      List.Sorted byCountDesc (get_top_frequent_words [([97], 1)] (-1)) ∧
      (get_top_frequent_words [([97], 1)] (-1)).length =
        ([([97], 1)] : WordCountMap).length) :=
  ⟨⟨by decide, by decide, by decide⟩,
   c9_negative_top_n [([97], 1)] (-1) (by decide) (by decide) (by decide)⟩

theorem goodChar_tolower {c : Nat} (h : isalpha c = true) : goodChar (tolower c) := by
  simp only [isalpha, Bool.or_eq_true, Bool.and_eq_true, decide_eq_true_eq] at h
  unfold tolower goodChar
  by_cases hc : (65 ≤ c && c ≤ 90) = true
  · rw [if_pos hc]
    simp only [Bool.and_eq_true, decide_eq_true_eq] at hc
    omega
  · rw [if_neg hc]
    simp only [Bool.and_eq_true, decide_eq_true_eq] at hc
    omega

theorem goodMap_addCount : ∀ {m : WordCountMap} {k : Word} {v : Nat},
    GoodMap m → GoodWord k → 1 ≤ v → GoodMap (addCount m k v)
  | [], k, v, _, hk, hv => by
    intro p hp
    simp only [addCount, List.mem_singleton] at hp
    subst hp
    exact ⟨hk, hv⟩
  | q :: rest, k, v, hm, hk, hv => by
    intro p hp
    simp only [addCount] at hp
    by_cases hq : q.1 = k
    · rw [if_pos hq] at hp
      rcases List.mem_cons.mp hp with h | h
      · subst h
        exact ⟨(hm q (List.mem_cons_self q rest)).1, by omega⟩
      · exact hm p (List.mem_cons_of_mem q h)
    · rw [if_neg hq] at hp
      rcases List.mem_cons.mp hp with h | h
      · subst h
        exact hm p (List.mem_cons_self p rest)
      · exact goodMap_addCount (fun x hx => hm x (List.mem_cons_of_mem q hx)) hk hv p h

theorem scan_good : ∀ (l : List Nat) (m : WordCountMap) (w : Word),
    GoodMap m → (∀ c ∈ w, goodChar c) →
    GoodMap (scan l m w).1 ∧ ∀ c ∈ (scan l m w).2, goodChar c
  | [], _, _, hm, hw => ⟨hm, hw⟩
  | c :: rest, m, w, hm, hw => by
    simp only [scan]
    by_cases hc : isalpha c = true
    · rw [if_pos hc]
      refine scan_good rest m (w ++ [tolower c]) hm fun x hx => ?_
      rcases List.mem_append.mp hx with h | h
      · exact hw x h
      · rw [List.mem_singleton.mp h]
        exact goodChar_tolower hc
    · rw [if_neg hc]
      by_cases hw0 : w ≠ []
      · rw [if_pos hw0]
        exact scan_good rest _ [] (goodMap_addCount hm ⟨hw0, hw⟩ le_rfl)
          (fun x hx => absurd hx (List.not_mem_nil x))
      · rw [if_neg hw0]
        exact scan_good rest m w hm hw

theorem goodMap_merge : ∀ (l : List (Word × Nat)) (shared : WordCountMap),
    GoodMap shared → GoodMap l →
    GoodMap (l.foldl (fun acc p => addCount acc p.1 p.2) shared)
  | [], _, hs, _ => hs
  | p :: rest, _, hs, hl =>
    goodMap_merge rest _
      (goodMap_addCount hs (hl p (List.mem_cons_self p rest)).1
        (hl p (List.mem_cons_self p rest)).2)
      (fun x hx => hl x (List.mem_cons_of_mem p hx))

theorem goodMap_count_words (text_part : List Nat) (shared : WordCountMap)
    (hs : GoodMap shared) : GoodMap (count_words text_part shared) := by
  have h := scan_good text_part [] [] (fun p hp => absurd hp (List.not_mem_nil p))
    (fun c hc => absurd hc (List.not_mem_nil c))
  simp only [count_words]
  refine goodMap_merge _ _ hs ?_
  by_cases hw : (scan text_part [] []).2 ≠ []
  · rw [if_pos hw]
    exact goodMap_addCount h.1 ⟨hw, h.2⟩ le_rfl
  · rw [if_neg hw]
    exact h.1

theorem goodMap_workers (file_content : List Nat) : ∀ (idxs : List Nat) (acc : WordCountMap),
    GoodMap acc → GoodMap (idxs.foldl (fun a i => count_words (parts file_content i) a) acc)
  | [], _, h => h
  | i :: rest, acc, h =>
    goodMap_workers file_content rest _ (goodMap_count_words (parts file_content i) acc h)

/-- C10: every map the program builds is well-formed: the single-threaded
result, the result of any worker's `count_words` call merging its local
scan into a well-formed shared map, and the multi-threaded merged result
contain only nonempty all-lowercase-alphabetic keys with counts ≥ 1. -/
theorem c10_wellformed_maps :
    (∀ file, GoodMap (process_file_single_thread file)) ∧
    (∀ (text_part : List Nat) (shared : WordCountMap),
      GoodMap shared → GoodMap (count_words text_part shared)) ∧
    (∀ file, GoodMap (process_file_multi_thread file)) := by
  refine ⟨fun file => ?_, goodMap_count_words, fun file => ?_⟩
  · cases file with
    | none => exact fun p hp => absurd hp (List.not_mem_nil p)
    | some content =>
      exact (scan_good content [] [] (fun p hp => absurd hp (List.not_mem_nil p))
        (fun c hc => absurd hc (List.not_mem_nil c))).1
  · cases file with
    | none => exact fun p hp => absurd hp (List.not_mem_nil p)
    | some content =>
      exact goodMap_workers content (List.range MAX_THREADS) []
        (fun p hp => absurd hp (List.not_mem_nil p))

/-- C10 witness: well-formedness of the worker-produced map at a concrete
partition and an empty (vacuously well-formed) shared map. -/
theorem c10_wellformed_maps_w : GoodMap (count_words (bytes "Abc 42 de") []) :=
  c10_wellformed_maps.2.1 (bytes "Abc 42 de") []
    (fun p hp => absurd hp (List.not_mem_nil p))

end FileProc
